import Mathlib

/-!
Verification of the Spotify-Stats reconciliation/deduplication engine.

Shallow embedding of the JavaScript source in src/backend/dataDeduplication.js
and the streaming-history importer (src/unnamed/part_000).  Conventions:

* JavaScript strings are modelled as `List Char` (`Str`); the string splitting
  used by the source always splits on a single-character separator, modelled
  by the structural `splitChar` below, which agrees with JS `String.split`.
* Timestamps in the store (`played_at`) are modelled as epoch milliseconds
  (`Int`).  The source stores ISO-8601 strings and compares them with
  `gte`/`lte`; lexicographic comparison of ISO time strings coincides with
  numeric comparison of the corresponding instants, so the embedding is
  order-faithful.  The full ISO-8601 formatter (`toISOString`) is modelled
  explicitly where the produced string itself matters (`convertEndTime`).
* Crypto hashes are modelled as injective fingerprints: the md5 fingerprint
  of the uploaded JSON content is the content itself, and the sha-256-based
  track identifier is the normalized `track|artist` text itself.  This keeps
  determinism and distinctness, abstracting only hash-collision accidents.
* Each `await supabase...` call is a query; query failures (an error result
  or a thrown exception) are injected through explicit environment values.
-/

namespace SpotifyStats

/-- JavaScript strings, modelled as lists of characters. -/
abbrev Str := List Char

/-- JS `String.prototype.split` with a single-character separator.
Matches JS semantics: `"".split(c) = [""]`, adjacent separators produce
empty fragments. -/
def splitChar (c : Char) : Str → List Str
  | [] => [[]]
  | x :: xs =>
    let r := splitChar c xs
    if x = c then [] :: r
    else
      match r with
      | [] => [[x]]
      | g :: gs => (x :: g) :: gs

/-- Whitespace recognized by JS `parseInt` / `String.prototype.trim`
(ASCII portion; the source never feeds non-ASCII whitespace). -/
def isWs (c : Char) : Bool :=
  c = ' ' || c = '\t' || c = '\n' || c = '\r' || c = Char.ofNat 11 || c = Char.ofNat 12

def isDecDigit (c : Char) : Bool := '0' ≤ c && c ≤ '9'

def isHexDigit (c : Char) : Bool :=
  isDecDigit c || ('a' ≤ c && c ≤ 'f') || ('A' ≤ c && c ≤ 'F')

def decDigitVal (c : Char) : Nat := c.toNat - 48

def hexDigitVal (c : Char) : Nat :=
  if isDecDigit c then c.toNat - 48
  else if 'a' ≤ c && c ≤ 'f' then c.toNat - 87
  else c.toNat - 55

/-- Value of a list of digits in the given base (most significant first). -/
def digitsValue (base : Nat) (dv : Char → Nat) (ds : List Char) : Nat :=
  ds.foldl (fun acc c => acc * base + dv c) 0

/-- JS `parseInt(s)` (radix auto-detected): skip leading whitespace, optional
sign, `0x`/`0X` switches to hexadecimal, parse the longest digit run and
ignore everything after it; no digit at all gives `NaN` (modelled `none`). -/
def jsParseInt (s : Str) : Option Int :=
  let s := s.dropWhile isWs
  let (neg, s) :=
    match s with
    | '-' :: rest => (true, rest)
    | '+' :: rest => (false, rest)
    | _ => (false, s)
  let (base, dv, s) :=
    match s with
    | '0' :: 'x' :: rest => (16, hexDigitVal, rest)
    | '0' :: 'X' :: rest => (16, hexDigitVal, rest)
    | _ => (10, decDigitVal, s)
  let isDig : Char → Bool := if base = 16 then isHexDigit else isDecDigit
  let ds := s.takeWhile isDig
  if ds.isEmpty then none
  else
    let v : Int := Int.ofNat (digitsValue base dv ds)
    some (if neg then -v else v)

/-- JS `parseInt` applied to a possibly-`undefined` value
(`parseInt(undefined)` is `NaN`). -/
def jsParseIntOpt (s : Option Str) : Option Int := s.bind jsParseInt

/-! ### ECMA-262 calendar arithmetic (`Date.UTC` / `Date.prototype.toISOString`) -/

/-- Proleptic Gregorian leap-year test (ECMA `DaysInYear`). -/
def isLeap (y : Int) : Bool := (y % 4 == 0 && y % 100 != 0) || y % 400 == 0

/-- ECMA `DayFromYear`: day number of Jan 1 of year `y` (day 0 = 1970-01-01).
`Int` division in Lean is Euclidean, which is floor division for the
positive divisors used here, matching the ECMA `floor` calls. -/
def dayFromYear (y : Int) : Int :=
  365 * (y - 1970) + (y - 1969) / 4 - (y - 1901) / 100 + (y - 1601) / 400

/-- Days in the year strictly before 0-indexed month `m` (`m < 12`). -/
def daysBeforeMonth (leap : Bool) : Nat → Int
  | 0 => 0
  | 1 => 31
  | 2 => if leap then 60 else 59
  | 3 => if leap then 91 else 90
  | 4 => if leap then 121 else 120
  | 5 => if leap then 152 else 151
  | 6 => if leap then 182 else 181
  | 7 => if leap then 213 else 212
  | 8 => if leap then 244 else 243
  | 9 => if leap then 274 else 273
  | 10 => if leap then 305 else 304
  | 11 => if leap then 335 else 334
  | _ => 0

/-- ECMA `MakeDay(y, m, d)` for integral arguments: month overflow rolls
into the year, day overflow rolls into the month (day is just added). -/
def makeDay (y m d : Int) : Int :=
  let ym := y + m / 12
  let mn := (m % 12).toNat
  dayFromYear ym + daysBeforeMonth (isLeap ym) mn + (d - 1)

/-- ECMA `MakeTime(h, min, 0, 0)` — the source always passes seconds 0. -/
def makeTime (h mi : Int) : Int := h * 3600000 + mi * 60000

/-- `Date.UTC(y, m, d, h, mi, 0)` for integral arguments, including the
two-digit-year rule (`0 ≤ y ≤ 99` means `1900 + y`). -/
def dateUTC (y m d h mi : Int) : Int :=
  let yr := if 0 ≤ y && y ≤ 99 then 1900 + y else y
  makeDay yr m d * 86400000 + makeTime h mi

/-- ECMA `TimeClip` bound: a time value is valid iff its magnitude is at
most 8.64e15 milliseconds. -/
def timeClipOk (t : Int) : Bool := t.natAbs ≤ 8640000000000000

/-- Civil date from day number (proleptic Gregorian, day 0 = 1970-01-01).
Standard era-based conversion; all divisors are positive so Euclidean
division is floor division. -/
def civilFromDays (days : Int) : Int × Nat × Nat :=
  let z := days + 719468
  let era := z / 146097
  let doe := z - era * 146097
  let yoe := (doe - doe / 1460 + doe / 36524 - doe / 146096) / 365
  let y := yoe + era * 400
  let doy := doe - (365 * yoe + yoe / 4 - yoe / 100)
  let mp := (5 * doy + 2) / 153
  let d := doy - (153 * mp + 2) / 5 + 1
  let m := mp + (if mp < 10 then 3 else -9)
  (y + (if m ≤ 2 then 1 else 0), m.toNat, d.toNat)

def digitChar (n : Nat) : Char := Char.ofNat (48 + n)

def pad2 (n : Nat) : Str := [digitChar (n / 10 % 10), digitChar (n % 10)]

def pad3 (n : Nat) : Str :=
  [digitChar (n / 100 % 10), digitChar (n / 10 % 10), digitChar (n % 10)]

def pad4 (n : Nat) : Str :=
  [digitChar (n / 1000 % 10), digitChar (n / 100 % 10),
   digitChar (n / 10 % 10), digitChar (n % 10)]

def pad6 (n : Nat) : Str :=
  [digitChar (n / 100000 % 10), digitChar (n / 10000 % 10),
   digitChar (n / 1000 % 10), digitChar (n / 100 % 10),
   digitChar (n / 10 % 10), digitChar (n % 10)]

/-- `Date.prototype.toISOString` body for a valid time value `t`
(epoch milliseconds): `yyyy-mm-ddThh:mm:ss.mmmZ`, with the expanded
`±yyyyyy` year form outside 0..9999. -/
def formatIso (t : Int) : Str :=
  let days := t / 86400000
  let msDay := (t % 86400000).toNat
  let c := civilFromDays days
  let y := c.1
  let yearStr :=
    if 0 ≤ y && y ≤ 9999 then pad4 y.toNat
    else if y < 0 then '-' :: pad6 (-y).toNat
    else '+' :: pad6 y.toNat
  yearStr ++ '-' :: pad2 c.2.1 ++ '-' :: pad2 c.2.2 ++
    'T' :: pad2 (msDay / 3600000) ++ ':' :: pad2 (msDay / 60000 % 60) ++
    ':' :: pad2 (msDay / 1000 % 60) ++ '.' :: pad3 (msDay % 1000) ++ ['Z']

/-- `toISOString` on a `Date` holding time value `t`: throws (modelled
`none`) iff the time value is invalid (`NaN` from clipping). -/
def toISOString (t : Int) : Option Str :=
  if timeClipOk t then some (formatIso t) else none

/-! ### `convertEndTime` (src/unnamed/part_000, lines 20-42) -/

/-- Component extraction of `convertEndTime`: split on the space (a missing
time part makes `timePart.split` throw, caught as failure), split the date
on `-` and the time on `:`, and `parseInt` the five components; any `NaN`
component propagates (it would make `Date.UTC` return `NaN` and
`toISOString` throw, caught as failure).  Returns
`(year, month, day, hour, minute)` as written, month still 1-based. -/
def parseEndTimeParts (s : Str) : Option (Int × Int × Int × Int × Int) :=
  match splitChar ' ' s with
  | datePart :: timePart :: _ =>
    let dparts := splitChar '-' datePart
    let tparts := splitChar ':' timePart
    match jsParseIntOpt dparts[0]?, jsParseIntOpt dparts[1]?, jsParseIntOpt dparts[2]?,
          jsParseIntOpt tparts[0]?, jsParseIntOpt tparts[1]? with
    | some y, some mo, some d, some h, some mi => some (y, mo, d, h, mi)
    | _, _, _, _, _ => none
  | _ => none

/-- The instant computed by `convertEndTime` (epoch milliseconds):
`Date.UTC(year, month - 1, day, hour, minute, 0)`, failing (as the source
does, via the caught `toISOString` exception) when a component is `NaN` or
the time value is clipped. -/
def convertEndTimeMs (s : Str) : Option Int :=
  (parseEndTimeParts s).bind fun p =>
    let t := dateUTC p.1 (p.2.1 - 1) p.2.2.1 p.2.2.2.1 p.2.2.2.2
    if timeClipOk t then some t else none

/-- `convertEndTime` itself: the ISO-8601 string of that instant, or `null`
(`none`) on any caught exception. -/
def convertEndTime (s : Str) : Option Str :=
  (parseEndTimeParts s).bind fun p =>
    toISOString (dateUTC p.1 (p.2.1 - 1) p.2.2.1 p.2.2.2.1 p.2.2.2.2)

/-- Days in month `m` (1-based) of year `y`. -/
def daysInMonth (y : Int) (m : Nat) : Int :=
  match m with
  | 1 => 31 | 2 => if isLeap y then 29 else 28 | 3 => 31 | 4 => 30
  | 5 => 31 | 6 => 30 | 7 => 31 | 8 => 31 | 9 => 30 | 10 => 31
  | 11 => 30 | 12 => 31 | _ => 0

/-- Modelled from the spec (§4.2 `toAbsoluteTime`): parse the same
`"YYYY-MM-DD HH:MM"` components, fail with `InvalidTimestamp` (modelled
`none`) when any component is non-numeric or the month, day, hour or
minute is out of range, and otherwise interpret the components as UTC with
seconds zero, producing the canonical ISO-8601 instant with `Z`. -/
def toAbsoluteTime (s : Str) : Option Str :=
  (parseEndTimeParts s).bind fun p =>
    let y := p.1
    let mo := p.2.1
    let d := p.2.2.1
    let h := p.2.2.2.1
    let mi := p.2.2.2.2
    if 1 ≤ mo && mo ≤ 12 && 1 ≤ d && d ≤ daysInMonth y mo.toNat &&
       0 ≤ h && h ≤ 23 && 0 ≤ mi && mi ≤ 59 then
      toISOString (makeDay y (mo - 1) d * 86400000 + makeTime h mi)
    else none

/-! ### Data model (`spotify_plays` rows) -/

/-- The fixed owner identity hardcoded in every module of the source. -/
def userId : Str := "123e4567-e89b-12d3-a456-426614174000".data

def sourceImport : Str := "import".data

def sourceApi : Str := "api".data

/-- A row of the `spotify_plays` table.  `played_at` is the instant in
epoch milliseconds (see the header note on ISO strings). -/
structure Play where
  id : Nat := 0
  user_id : Str := userId
  track_id : Option Str := none
  track_name : Str := []
  artist : Str := []
  album : Option Str := none
  duration_ms : Int := 0
  played_at : Int
  source : Str
deriving DecidableEq

/-- Outcome of one supabase query: it succeeds, returns an error result,
or throws. -/
inductive QueryFailure where
  | ok
  | errRes
  | thrown
deriving DecidableEq

/-! ### `DataDeduplication` (src/backend/dataDeduplication.js) -/

/-- The row-level condition of the `hasNearbyApiPlay` supabase query:
same (fixed) user, source `api`, `played_at` between `timestamp - 5000`
and `timestamp + 5000` milliseconds, both bounds inclusive
(`gte` / `lte`). -/
def nearbyWindowHit (t : Int) (p : Play) : Bool :=
  p.user_id == userId && p.source == sourceApi &&
    decide (t - 5000 ≤ p.played_at) && decide (p.played_at ≤ t + 5000)

/-- The rows returned by the `hasNearbyApiPlay` query (`limit 1`). -/
def nearbyQuery (store : List Play) (t : Int) : List Play :=
  (store.filter (nearbyWindowHit t)).take 1

/-- `hasNearbyApiPlay(timestamp)` (lines 39-64): true iff the query
succeeds and returns at least one row; an error result returns `false`
("assume no duplicate on error") and a thrown exception is caught and
returns `false`. -/
def hasNearbyApiPlay (f : QueryFailure) (store : List Play) (t : Int) : Bool :=
  match f with
  | .errRes => false
  | .thrown => false
  | .ok => !(nearbyQuery store t).isEmpty

/-- State-passing form of `hasNearbyApiPlay`: the function only reads the
store, so the resulting store is returned alongside the boolean. -/
def hasNearbyApiPlayRun (f : QueryFailure) (store : List Play) (t : Int) :
    Bool × List Play :=
  (hasNearbyApiPlay f store t, store)

/-- Result of `removeDuplicateImportPlays`: the `cleaned` list, the
`removed` counter, and the number of store queries issued while
producing them (one `hasNearbyApiPlay` call per import-sourced play). -/
structure FilterOut where
  cleaned : List Play
  removed : Nat
  queries : Nat
deriving DecidableEq

/-- The loop body of `removeDuplicateImportPlays` (lines 17-33), with the
matcher abstracted: plays whose source is not `import` are pushed
untouched; an import play triggers one matcher query and is dropped
(counting `removed`) on a hit, pushed otherwise. -/
def removeDuplicateImportPlaysGo (m : Int → Bool) : List Play → FilterOut
  | [] => ⟨[], 0, 0⟩
  | p :: rest =>
    let r := removeDuplicateImportPlaysGo m rest
    if !(p.source == sourceImport) then ⟨p :: r.cleaned, r.removed, r.queries⟩
    else if m p.played_at then ⟨r.cleaned, r.removed + 1, r.queries + 1⟩
    else ⟨p :: r.cleaned, r.removed, r.queries + 1⟩

/-- `removeDuplicateImportPlays(plays)` (lines 9-36): a missing (`null`,
modelled `none`) or empty list returns `{ cleaned: [], removed: 0 }`
immediately, issuing no query. -/
def removeDuplicateImportPlays (m : Int → Bool) (plays : Option (List Play)) :
    FilterOut :=
  match plays with
  | none => ⟨[], 0, 0⟩
  | some ps => if ps.length = 0 then ⟨[], 0, 0⟩ else removeDuplicateImportPlaysGo m ps

/-- `filterNewPlays(newPlays)` (lines 124-136): returns `[]` for missing or
empty input without querying, otherwise the `cleaned` list of the batch
filter.  The second component is the query count. -/
def filterNewPlays (m : Int → Bool) (newPlays : Option (List Play)) :
    List Play × Nat :=
  match newPlays with
  | none => ([], 0)
  | some ps =>
    if ps.length = 0 then ([], 0)
    else
      let r := removeDuplicateImportPlays m (some ps)
      (r.cleaned, r.queries)

/-- Environment of `cleanExistingImportPlays`: whether the fetch of import
plays fails, whether the batched delete fails, and the failure mode of the
per-play nearby queries. -/
structure CleanEnv where
  fetchFail : Bool := false
  deleteFail : Bool := false
  nearbyFailure : QueryFailure := .ok

/-- The result object of `cleanExistingImportPlays`; the early return for
an empty fetch carries no `remaining` field, modelled by `none`. -/
structure CleanResult where
  total : Nat
  removed : Nat
  remaining : Option Nat
deriving DecidableEq

/-- Sorting used by the fetch (`order played_at ascending`). -/
def sortByPlayedAt (l : List Play) : List Play :=
  l.mergeSort (fun a b => decide (a.played_at ≤ b.played_at))

/-- The row filter of the fetch in `cleanExistingImportPlays`:
`eq user_id` and `eq source import`. -/
def ownedImport (p : Play) : Bool :=
  p.user_id == userId && p.source == sourceImport

/-- The JS local `importPlays` of `cleanExistingImportPlays`: all the
stored import plays of the user, ordered by `played_at` ascending. -/
def fetchedImports (store : List Play) : List Play :=
  sortByPlayedAt (store.filter ownedImport)

/-- The JS local `{ cleaned, removed }` of `cleanExistingImportPlays`:
the fetched import plays run through the batch filter against the current
store. -/
def cleanOut (f : QueryFailure) (store : List Play) : FilterOut :=
  removeDuplicateImportPlays (hasNearbyApiPlay f store) (some (fetchedImports store))

/-- The JS local `idsToRemove`:
`importPlays.filter(p => !cleaned.includes(p)).map(p => p.id)` — JS
`includes` on rows fetched once coincides with value equality. -/
def cleanIdsToRemove (f : QueryFailure) (store : List Play) : List Nat :=
  ((fetchedImports store).filter fun p =>
    !((cleanOut f store).cleaned.contains p)).map Play.id

/-- `cleanExistingImportPlays()` (lines 67-121): fetch all import plays of
the user ordered by time, run them through `removeDuplicateImportPlays`
against the current store, and if any were flagged, delete exactly the
rows whose ids they carry.  Fetch or delete errors are thrown
(`Except.error`). -/
def cleanExistingImportPlays (env : CleanEnv) (store : List Play) :
    Except Str (List Play × CleanResult) :=
  if env.fetchFail then .error "StoreUnavailable: fetch".data
  else if (fetchedImports store).length = 0 then .ok (store, ⟨0, 0, none⟩)
  else if 0 < (cleanOut env.nearbyFailure store).removed then
    if env.deleteFail then .error "StoreUnavailable: delete".data
    else .ok (store.filter fun p =>
        !((cleanIdsToRemove env.nearbyFailure store).contains p.id),
      ⟨(fetchedImports store).length, (cleanOut env.nearbyFailure store).removed,
       some (cleanOut env.nearbyFailure store).cleaned.length⟩)
  else .ok (store,
    ⟨(fetchedImports store).length, (cleanOut env.nearbyFailure store).removed,
     some (cleanOut env.nearbyFailure store).cleaned.length⟩)

/-! ### `SpotifyHistoryImporter` (src/unnamed/part_000) -/

/-- JS `toLowerCase` on the ASCII text handled by the source. -/
def toLowerStr (s : Str) : Str := s.map Char.toLower

/-- JS `String.prototype.trim`. -/
def trimStr (s : Str) : Str :=
  ((s.dropWhile isWs).reverse.dropWhile isWs).reverse

/-- `generateTrackId(trackName, artistName)` (lines 12-17): `null` when
either argument is absent or falsy (the empty string), otherwise the
sha-256-derived identifier of the normalized `track|artist` text — the
hash is modelled as the normalized text itself (injective fingerprint). -/
def generateTrackId (trackName artistName : Option Str) : Option Str :=
  match trackName, artistName with
  | some t, some a =>
    if t.isEmpty || a.isEmpty then none
    else some (trimStr (toLowerStr t) ++ '|' :: trimStr (toLowerStr a))
  | _, _ => none

/-- A raw streaming-history record.  A missing JSON field is `none`;
`msPlayed` is the numeric field already converted by `parseInt` (a
non-numeric value, yielding `NaN`, is also `none`). -/
structure Item where
  endTime : Option Str := none
  trackName : Option Str := none
  artistName : Option Str := none
  msPlayed : Option Int := none
deriving DecidableEq

def strStarts (pre s : Str) : Bool :=
  match pre, s with
  | [], _ => true
  | _, [] => false
  | a :: as, b :: bs => a == b && strStarts as bs

def strEnds (suf s : Str) : Bool := strStarts suf.reverse s.reverse

def msgInvalidFilename : Str :=
  "Invalid filename. Must be StreamingHistory*.json".data

def msgEmptyFile : Str := "File is empty.".data

def msgMissingField (f : Str) : Str := "Missing required field: ".data ++ f

def msgDuplicateUpload : Str := "This file has already been uploaded.".data

def msgNoValidPlays : Str := "No valid plays found in file.".data

def msgAllDuplicates : Str :=
  "All plays were filtered out as duplicates of existing API data.".data

/-- `validateFile(filename, data)` (lines 45-69): filename pattern, data a
non-empty array (the array-ness is carried by the type of `data`), and the
four required fields present on the first record. -/
def validateFile (filename : Str) (data : List Item) : Except Str Unit :=
  if !(strStarts "StreamingHistory".data filename && strEnds ".json".data filename) then
    .error msgInvalidFilename
  else
    match data with
    | [] => .error msgEmptyFile
    | first :: _ =>
      if first.endTime.isNone then .error (msgMissingField "endTime".data)
      else if first.trackName.isNone then .error (msgMissingField "trackName".data)
      else if first.artistName.isNone then .error (msgMissingField "artistName".data)
      else if first.msPlayed.isNone then .error (msgMissingField "msPlayed".data)
      else .ok ()

/-- What becomes of one raw record in `parseStreamingHistory`: a candidate
play, a recorded per-record timestamp error, or a silent skip
(zero duration). -/
inductive TransformRes where
  | play (p : Play)
  | badTime
  | skipped

/-- The per-record transform of `parseStreamingHistory` (lines 76-104):
timestamp via `convertEndTime` (failure recorded per-record), identity via
`generateTrackId`, falsy names defaulted, duration `parseInt(msPlayed)||0`,
source `import`, and records with duration exactly 0 discarded. -/
def transformItem (item : Item) : TransformRes :=
  match (match item.endTime with
         | none => none
         | some s => convertEndTimeMs s) with
  | none => .badTime
  | some t =>
    let dur : Int := match item.msPlayed with
      | some n => n
      | none => 0
    let p : Play :=
      { id := 0
        user_id := userId
        track_id := generateTrackId item.trackName item.artistName
        track_name := match item.trackName with
          | some s => if s.isEmpty then "Unknown Track".data else s
          | none => "Unknown Track".data
        artist := match item.artistName with
          | some s => if s.isEmpty then "Unknown Artist".data else s
          | none => "Unknown Artist".data
        album := none
        duration_ms := dur
        played_at := t
        source := sourceImport }
    if dur = 0 then .skipped else .play p

/-- `parseStreamingHistory(data)` (lines 72-107): candidate plays in input
order plus the number of per-record errors. -/
def parseStreamingHistory (data : List Item) : List Play × Nat :=
  match data with
  | [] => ([], 0)
  | i :: rest =>
    let r := parseStreamingHistory rest
    match transformItem i with
    | .play p => (p :: r.1, r.2)
    | .badTime => (r.1, r.2 + 1)
    | .skipped => r

/-- The batches `plays.slice(i, i + batchSize)` of the insert loop
(lines 117-138).  The fuel argument is the list length: with a positive
batch size every step strictly shortens the list, so the fuel is never
exhausted (the source loop likewise advances `i` by `batchSize`). -/
def chunksGo (n : Nat) : Nat → List Play → List (List Play)
  | 0, _ => []
  | _, [] => []
  | fuel + 1, l => l.take n :: chunksGo n fuel (l.drop n)

def chunks (n : Nat) (l : List Play) : List (List Play) := chunksGo n l.length l

/-- The `results` object of `batchInsertPlays`; error messages are
modelled by the starting offset of the failing batch. -/
structure InsertResults where
  inserted : Nat
  duplicates : Nat
  errors : List Nat
deriving DecidableEq

/-- The conflict target declared by the upsert:
`onConflict: user_id,track_id,played_at` with `ignoreDuplicates`. -/
def conflictKey (p : Play) : Str × Option Str × Int :=
  (p.user_id, p.track_id, p.played_at)

/-- Insert-or-ignore of one row: skipped iff a row with the same conflict
key is already present. -/
def insertIgnoreRow (store : List Play) (row : Play) : List Play :=
  if store.any (fun q => conflictKey q == conflictKey row) then store
  else store ++ [row]

def upsertBatch (store : List Play) (batch : List Play) : List Play :=
  batch.foldl insertIgnoreRow store

/-- One step of the insert loop: a failing batch records an error and
inserts nothing; a successful batch upserts its rows and — because the
client does not report affected-row counts — adds the whole
`batch.length` to `inserted` ("estimate based on batch size"). -/
def batchInsertStep (failAt : Nat → Bool) (batchSize : Nat)
    (acc : List Play × InsertResults × Nat) (batch : List Play) :
    List Play × InsertResults × Nat :=
  let store := acc.1
  let res := acc.2.1
  let i := acc.2.2
  if failAt i then (store, ⟨res.inserted, res.duplicates, res.errors ++ [i]⟩, i + batchSize)
  else (upsertBatch store batch,
    ⟨res.inserted + batch.length, res.duplicates, res.errors⟩, i + batchSize)

/-- `batchInsertPlays(plays, batchSize = 100)` (lines 110-141). -/
def batchInsertPlays (failAt : Nat → Bool) (store : List Play)
    (plays : List Play) (batchSize : Nat := 100) : List Play × InsertResults :=
  let r := (chunks batchSize plays).foldl (batchInsertStep failAt batchSize)
    (store, ⟨0, 0, []⟩, 0)
  (r.1, r.2.1)

/-- The md5 content fingerprint of `JSON.stringify(data)`, modelled as the
content itself (injective fingerprint). -/
abbrev FileHash := List Item

/-- A row of the `import_uploads` table. -/
structure UploadRecord where
  filename : Str
  file_hash : FileHash
  user_id : Str := userId
  total_plays : Nat := 0
  inserted_plays : Nat := 0
deriving DecidableEq

/-- Failure injection for one `importStreamingHistory` call. -/
structure ImpEnv where
  dupCheckErr : Bool := false
  nearbyFailure : QueryFailure := .ok
  insertFailAt : Nat → Bool := fun _ => false
  recordFail : Bool := false

/-- The full importer state: the `spotify_plays` and `import_uploads`
tables. -/
structure ImpState where
  plays : List Play := []
  uploads : List UploadRecord := []
deriving DecidableEq

/-- `checkDuplicateUpload(filename, fileHash)` (lines 144-167): the query
filters on `filename` **and** `file_hash` (no user column) with
`.single()`, which yields a row exactly when one row matches; zero
matches is the not-found error (`PGRST116`, returns `false`), several
matches also error with data `null` (returns `false`), and any other
store error is thrown and caught — "continue with upload even if
duplicate check fails" — returning `false`. -/
def checkDuplicateUpload (env : ImpEnv) (uploads : List UploadRecord)
    (filename : Str) (h : FileHash) : Bool :=
  if env.dupCheckErr then false
  else
    match uploads.filter (fun r => r.filename == filename && r.file_hash == h) with
    | [_] => true
    | _ => false

/-- The result object of `importStreamingHistory`.  The elapsed-time field
is not modelled (wall-clock time). -/
structure ImportResult where
  success : Bool
  error : Option Str := none
  totalPlays : Nat := 0
  insertedPlays : Nat := 0
  duplicates : Nat := 0
  parseErrors : Nat := 0
  insertErrors : Nat := 0
deriving DecidableEq

/-- `importStreamingHistory` after the duplicate-upload gate (lines
206-248): validate, parse, reject an empty candidate list, filter against
authoritative plays, reject an empty filter output (`AllDuplicates`),
batch-insert the survivors, record provenance (`recordUpload` swallows its
own store errors), and build the success result. -/
def importRest (env : ImpEnv) (filename : Str) (data : List Item)
    (st : ImpState) : ImportResult × ImpState :=
  match validateFile filename data with
  | .error e => ({ success := false, error := some e }, st)
  | .ok _ =>
    let parsed := parseStreamingHistory data
    let plays := parsed.1
    if plays.length = 0 then
      ({ success := false, error := some msgNoValidPlays }, st)
    else
      let filtered :=
        (filterNewPlays (hasNearbyApiPlay env.nearbyFailure st.plays) (some plays)).1
      if filtered.length = 0 then
        ({ success := false, error := some msgAllDuplicates }, st)
      else
        let ins := batchInsertPlays env.insertFailAt st.plays filtered 100
        let uploads2 :=
          if env.recordFail then st.uploads
          else st.uploads ++
            [{ filename := filename, file_hash := data, user_id := userId,
               total_plays := plays.length, inserted_plays := ins.2.inserted }]
        ({ success := true
           totalPlays := plays.length
           insertedPlays := ins.2.inserted
           duplicates := plays.length - ins.2.inserted
           parseErrors := parsed.2
           insertErrors := ins.2.errors.length },
         { plays := ins.1, uploads := uploads2 })

/-- `importStreamingHistory(filename, data)` (lines 192-260): fingerprint
the content, reject a detected duplicate upload before any parsing
(caught as the top-level failure, state untouched), then run the rest of
the pipeline. -/
def importStreamingHistory (env : ImpEnv) (filename : Str) (data : List Item)
    (st : ImpState) : ImportResult × ImpState :=
  if checkDuplicateUpload env st.uploads filename data then
    ({ success := false, error := some msgDuplicateUpload }, st)
  else importRest env filename data st

/-! ## Helper lemmas -/

/-- A successful nearby query answers existence over the whole store:
the `limit 1` only truncates the returned rows. -/
theorem hasNearbyApiPlay_ok_eq_any (store : List Play) (t : Int) :
    hasNearbyApiPlay .ok store t = store.any (nearbyWindowHit t) := by
  have h1 : hasNearbyApiPlay .ok store t = !(nearbyQuery store t).isEmpty := rfl
  rw [h1]
  cases ha : store.any (nearbyWindowHit t) with
  | false =>
    have hall : ∀ x ∈ store, ¬ nearbyWindowHit t x = true := by
      intro x hx hpx
      have : store.any (nearbyWindowHit t) = true :=
        List.any_eq_true.mpr ⟨x, hx, hpx⟩
      rw [ha] at this
      exact Bool.false_ne_true this
    have hfil : store.filter (nearbyWindowHit t) = [] := by
      rw [List.filter_eq_nil_iff]; exact hall
    simp [nearbyQuery, hfil]
  | true =>
    obtain ⟨x, hx, hpx⟩ := List.any_eq_true.mp ha
    have hmem : x ∈ store.filter (nearbyWindowHit t) :=
      List.mem_filter.mpr ⟨hx, hpx⟩
    rcases hf : store.filter (nearbyWindowHit t) with _ | ⟨p, rest⟩
    · rw [hf] at hmem; exact absurd hmem (List.not_mem_nil x)
    · simp [nearbyQuery, hf]

/-- The predicate deciding that a candidate is dropped by the batch
filter, for a fixed matcher. -/
def droppedBy (m : Int → Bool) (p : Play) : Bool :=
  (p.source == sourceImport) && m p.played_at

/-- Closed form of the filter loop: kept rows are the filter of the input
by the negated drop predicate, `removed` counts dropped rows, and one
query is issued per import-sourced row. -/
theorem removeDuplicateImportPlaysGo_eq (m : Int → Bool) (ps : List Play) :
    removeDuplicateImportPlaysGo m ps =
      ⟨ps.filter (fun p => !droppedBy m p),
       ps.countP (droppedBy m),
       ps.countP (fun p => p.source == sourceImport)⟩ := by
  induction ps with
  | nil => rfl
  | cons p rest ih =>
    simp only [removeDuplicateImportPlaysGo, ih, List.filter_cons, List.countP_cons,
      droppedBy]
    by_cases hs : p.source = sourceImport
    · by_cases hm : m p.played_at = true
      · simp [hs, hm]
      · simp [hs, hm]
    · simp [hs]

/-- The same closed form through the public entry point. -/
theorem removeDuplicateImportPlays_some_eq (m : Int → Bool) (ps : List Play) :
    removeDuplicateImportPlays m (some ps) =
      ⟨ps.filter (fun p => !droppedBy m p),
       ps.countP (droppedBy m),
       ps.countP (fun p => p.source == sourceImport)⟩ := by
  unfold removeDuplicateImportPlays
  rcases ps with _ | ⟨p, rest⟩
  · rfl
  · simp [removeDuplicateImportPlaysGo_eq]

/-! ## Claims -/

/-- C1: for every store and candidate timestamp `t`, the near-duplicate
probe (with a succeeding query) returns true iff at least one play of the
fixed user with source `api` has `played_at` inside the inclusive window
`[t - 5000, t + 5000]` milliseconds; in particular a play exactly 5000 ms
away matches and one 5001 ms away does not. -/
theorem hasNearbyApiPlay_window_iff (store : List Play) (t : Int) :
    hasNearbyApiPlay .ok store t = true ↔
      ∃ p ∈ store, p.user_id = userId ∧ p.source = sourceApi ∧
        t - 5000 ≤ p.played_at ∧ p.played_at ≤ t + 5000 := by
  rw [hasNearbyApiPlay_ok_eq_any, List.any_eq_true]
  simp [nearbyWindowHit, and_assoc]

/-- C5: the batch filter keeps non-import candidates untouched, drops
exactly the import candidates flagged by the matcher (counting them in
`removed`), and `cleaned` is an order-preserving sublist of the input of
length `|input| - removed`. -/
theorem removeDuplicateImportPlays_partition (m : Int → Bool) (ps : List Play) :
    (removeDuplicateImportPlays m (some ps)).cleaned
        = ps.filter (fun p => !((p.source == sourceImport) && m p.played_at)) ∧
    (removeDuplicateImportPlays m (some ps)).removed
        = ps.countP (fun p => (p.source == sourceImport) && m p.played_at) ∧
    ((removeDuplicateImportPlays m (some ps)).cleaned).Sublist ps ∧
    ((removeDuplicateImportPlays m (some ps)).cleaned).length
        = ps.length - (removeDuplicateImportPlays m (some ps)).removed ∧
    (∀ p ∈ ps, p.source ≠ sourceImport →
      p ∈ (removeDuplicateImportPlays m (some ps)).cleaned) := by
  rw [removeDuplicateImportPlays_some_eq]
  refine ⟨rfl, rfl, List.filter_sublist ps, ?_, ?_⟩
  · show (ps.filter fun p => !droppedBy m p).length = ps.length - ps.countP (droppedBy m)
    rw [← List.countP_eq_length_filter]
    have h := List.length_eq_countP_add_countP (droppedBy m) ps
    simp only [decide_not, Bool.decide_eq_true] at h
    omega
  · intro p hp hsrc
    refine List.mem_filter.mpr ⟨hp, ?_⟩
    simp [droppedBy, hsrc]

/-- C5 witness: the filter characterization applied to a concrete mixed
input (an api play, a flagged import play, an unflagged import play),
evaluated. -/
theorem removeDuplicateImportPlays_partition_witness :
    (removeDuplicateImportPlays (fun t => decide (t < 100))
        (some [{ id := 1, played_at := 7, source := sourceApi },
               { id := 2, played_at := 8, source := sourceImport },
               { id := 3, played_at := 200, source := sourceImport }])).cleaned
      = [{ id := 1, played_at := 7, source := sourceApi },
         { id := 3, played_at := 200, source := sourceImport }] ∧
    (removeDuplicateImportPlays (fun t => decide (t < 100))
        (some [{ id := 1, played_at := 7, source := sourceApi },
               { id := 2, played_at := 8, source := sourceImport },
               { id := 3, played_at := 200, source := sourceImport }])).removed = 1 := by
  have h := removeDuplicateImportPlays_partition (fun t => decide (t < 100))
    [{ id := 1, played_at := 7, source := sourceApi },
     { id := 2, played_at := 8, source := sourceImport },
     { id := 3, played_at := 200, source := sourceImport }]
  exact ⟨by rw [h.1]; decide, by rw [h.2.1]; decide⟩

/-- C7: the near-duplicate matcher is a read-only probe that fails open:
the store it returns is the store it was given, and under a query error
result or a thrown exception the answer is `false` (the candidate is
kept). -/
theorem hasNearbyApiPlayRun_readonly_failopen (f : QueryFailure)
    (store : List Play) (t : Int) :
    (hasNearbyApiPlayRun f store t).2 = store ∧
      (f ≠ QueryFailure.ok → (hasNearbyApiPlayRun f store t).1 = false) := by
  refine ⟨rfl, fun hf => ?_⟩
  cases f with
  | ok => exact absurd rfl hf
  | errRes => rfl
  | thrown => rfl

/-- C7 witness: both failure modes evaluated on a store that would
otherwise match. -/
theorem hasNearbyApiPlayRun_readonly_failopen_witness :
    (hasNearbyApiPlayRun .errRes [{ played_at := 0, source := sourceApi }] 0).1 = false ∧
    (hasNearbyApiPlayRun .thrown [{ played_at := 0, source := sourceApi }] 0).1 = false ∧
    (hasNearbyApiPlayRun .errRes [{ played_at := 0, source := sourceApi }] 0).2
      = [{ played_at := 0, source := sourceApi }] :=
  ⟨(hasNearbyApiPlayRun_readonly_failopen .errRes
      [{ played_at := 0, source := sourceApi }] 0).2 (by decide),
   (hasNearbyApiPlayRun_readonly_failopen .thrown
      [{ played_at := 0, source := sourceApi }] 0).2 (by decide),
   (hasNearbyApiPlayRun_readonly_failopen .errRes
      [{ played_at := 0, source := sourceApi }] 0).1⟩

/-- C9: a missing (`null`) or empty candidate list makes the batch filter
return `{ cleaned: [], removed: 0 }` and `filterNewPlays` return the empty
list, in all cases with zero store queries issued. -/
theorem emptyInput_noQuery (m : Int → Bool) :
    removeDuplicateImportPlays m none = ⟨[], 0, 0⟩ ∧
    removeDuplicateImportPlays m (some []) = ⟨[], 0, 0⟩ ∧
    filterNewPlays m none = ([], 0) ∧
    filterNewPlays m (some []) = ([], 0) :=
  ⟨rfl, rfl, rfl, rfl⟩

/-- C3 counterexample: minute 75 is out of range, so the claim requires
failure, but the code rolls it over to 11:15 and returns a value; the
spec-modelled normalizer rejects the same input. -/
theorem convertEndTime_rollover_counterexample :
    convertEndTime "2023-12-27 10:75".data
      = some "2023-12-27T11:15:00.000Z".data ∧
    toAbsoluteTime "2023-12-27 10:75".data = none := by
  exact ⟨by decide, by decide⟩

/-- C3 amended: the normalizer is deterministic and UTC-based with seconds
zero, and it fails when a component is non-numeric (the parse fails), but
out-of-range month/day/hour/minute values are normalized by calendar
rollover instead of being rejected; on inputs the spec-modelled normalizer
accepts (all components in range, four-digit year at least 0100) the two
agree exactly. -/
theorem convertEndTime_agrees_with_spec_on_valid :
    (∀ s : Str, parseEndTimeParts s = none → convertEndTime s = none) ∧
    (∀ (s : Str) (y mo d h mi : Int),
      parseEndTimeParts s = some (y, mo, d, h, mi) → 100 ≤ y →
      (toAbsoluteTime s).isSome = true → convertEndTime s = toAbsoluteTime s) := by
  constructor
  · intro s hs
    unfold convertEndTime
    rw [hs]
    rfl
  · intro s y mo d h mi hs hy hsome
    unfold convertEndTime toAbsoluteTime
    unfold toAbsoluteTime at hsome
    rw [hs] at hsome ⊢
    simp only [Option.some_bind] at hsome ⊢
    by_cases hc : (1 ≤ mo && mo ≤ 12 && 1 ≤ d && d ≤ daysInMonth y mo.toNat &&
       0 ≤ h && h ≤ 23 && 0 ≤ mi && mi ≤ 59) = true
    · rw [if_pos hc]
      have hyr : (0 ≤ y && y ≤ 99) = false := by
        have h99 : ¬ (y ≤ 99) := by omega
        simp [h99]
      unfold dateUTC
      rw [hyr]
      simp
    · rw [if_neg hc] at hsome
      exact absurd hsome (by simp)

/-- C3 witness: a non-numeric input fails; the canonical input
`2023-12-27 10:30` satisfies the agreement hypotheses and both
normalizers produce the same ISO instant. -/
theorem convertEndTime_agrees_witness :
    parseEndTimeParts "garbage".data = none ∧
    convertEndTime "garbage".data = none ∧
    parseEndTimeParts "2023-12-27 10:30".data = some (2023, 12, 27, 10, 30) ∧
    (100 : Int) ≤ 2023 ∧
    (toAbsoluteTime "2023-12-27 10:30".data).isSome = true ∧
    convertEndTime "2023-12-27 10:30".data = toAbsoluteTime "2023-12-27 10:30".data := by
  refine ⟨by decide, ?_, by decide, by decide, by decide, ?_⟩
  · exact convertEndTime_agrees_with_spec_on_valid.1 _ (by decide)
  · exact convertEndTime_agrees_with_spec_on_valid.2 _ 2023 12 27 10 30
      (by decide) (by decide) (by decide)

/-- Concatenating the insert batches gives back the original play list. -/
theorem chunksGo_join (n : Nat) (hn : 0 < n) :
    ∀ (fuel : Nat) (l : List Play), l.length ≤ fuel → (chunksGo n fuel l).flatten = l := by
  intro fuel
  induction fuel with
  | zero =>
    intro l hl
    have : l = [] := List.eq_nil_of_length_eq_zero (Nat.le_zero.mp hl)
    subst this
    rfl
  | succ fuel ih =>
    intro l hl
    rcases l with _ | ⟨x, xs⟩
    · rfl
    · show ((x :: xs).take n :: chunksGo n fuel ((x :: xs).drop n)).flatten = x :: xs
      rw [List.flatten_cons]
      rw [ih ((x :: xs).drop n) (by
        rw [List.length_drop]
        simp only [List.length_cons] at hl ⊢
        omega)]
      exact List.take_append_drop n (x :: xs)

/-- With no failing batch, `inserted` accumulates the full length of every
batch and no error is recorded. -/
theorem batchInsertStep_nofail_sum (bs : List (List Play)) :
    ∀ (store : List Play) (res : InsertResults) (i : Nat),
      ((bs.foldl (batchInsertStep (fun _ => false) 100) (store, res, i)).2.1).inserted
          = res.inserted + (bs.map List.length).sum ∧
      ((bs.foldl (batchInsertStep (fun _ => false) 100) (store, res, i)).2.1).errors
          = res.errors := by
  induction bs with
  | nil => intro store res i; simp
  | cons b rest ih =>
    intro store res i
    have step : batchInsertStep (fun _ => false) 100 (store, res, i) b
        = (upsertBatch store b,
           ⟨res.inserted + b.length, res.duplicates, res.errors⟩, i + 100) := rfl
    rw [List.foldl_cons, step]
    have h := ih (upsertBatch store b)
      ⟨res.inserted + b.length, res.duplicates, res.errors⟩ (i + 100)
    simp only [List.map_cons, List.sum_cons] at h ⊢
    exact ⟨by rw [h.1]; omega, h.2⟩

/-- C4 amended: `insertedPlays` counts every row of each batch whose
upsert reported no error — the attempted rows — because the client does
not report affected-row counts; with no failing batch it equals the total
number of candidates handed to persistence, even when insert-or-ignore
conflicts keep rows out of the store. -/
theorem batchInsertPlays_counts_attempted (store plays : List Play) :
    (batchInsertPlays (fun _ => false) store plays 100).2.inserted = plays.length ∧
    (batchInsertPlays (fun _ => false) store plays 100).2.errors = [] := by
  unfold batchInsertPlays
  have h := batchInsertStep_nofail_sum (chunks 100 plays) store ⟨0, 0, []⟩ 0
  have hsum : ((chunks 100 plays).map List.length).sum = plays.length := by
    have hj : (chunks 100 plays).flatten = plays :=
      chunksGo_join 100 (by omega) plays.length plays (Nat.le_refl _)
    calc ((chunks 100 plays).map List.length).sum
        = (chunks 100 plays).flatten.length := (List.length_flatten _).symm
      _ = plays.length := by rw [hj]
  exact ⟨by rw [h.1, hsum]; simp, h.2⟩

def c4data : List Item :=
  [{ endTime := some "2023-12-27 10:30".data, trackName := some "Song".data,
     artistName := some "Artist".data, msPlayed := some 3500 }]

/-- A row already in the store carrying the same conflict key
(user, track identity, played-at) that the single candidate of `c4data`
will produce: the upsert ignores the candidate. -/
def c4prior : Play :=
  { id := 7, track_id := generateTrackId (some "Song".data) (some "Artist".data),
    played_at := 1703673000000, source := sourceImport }

def c4state : ImpState := { plays := [c4prior], uploads := [] }

/-- C4 counterexample: the import succeeds and reports
`insertedPlays = 1`, yet the store is unchanged — zero rows were actually
inserted, the one attempted row having been rejected by the
insert-or-ignore conflict key. -/
theorem insertedPlays_overcount_counterexample :
    (importStreamingHistory {} "StreamingHistory0.json".data c4data c4state).1.success
        = true ∧
    (importStreamingHistory {} "StreamingHistory0.json".data c4data c4state).1.insertedPlays
        = 1 ∧
    (importStreamingHistory {} "StreamingHistory0.json".data c4data c4state).2.plays
        = c4state.plays := by
  exact ⟨by decide, by decide, by decide⟩

def c2data : List Item :=
  [{ endTime := some "2023-12-27 10:30".data, trackName := some "Song".data,
     artistName := some "Artist".data, msPlayed := some 3500 }]

/-- A state whose provenance table already holds the byte-identical
content `c2data`, accepted earlier under the filename
`StreamingHistory0.json`. -/
def c2state : ImpState :=
  { plays := [],
    uploads := [{ filename := "StreamingHistory0.json".data, file_hash := c2data,
                  user_id := userId, total_plays := 1, inserted_plays := 1 }] }

/-- C2 failing input evaluated: re-submitting byte-identical content under
a *different* filename is not rejected — the import succeeds and inserts a
play — because `checkDuplicateUpload` filters on (filename, file_hash)
rather than on (user, content fingerprint); under the *same* filename the
upload is rejected before parsing with the state untouched. -/
theorem duplicateUpload_filename_keyed :
    (importStreamingHistory {} "StreamingHistory1.json".data c2data c2state).1.success
        = true ∧
    (importStreamingHistory {} "StreamingHistory1.json".data c2data c2state).2.plays.length
        = 1 ∧
    (importStreamingHistory {} "StreamingHistory0.json".data c2data c2state).1
        = { success := false, error := some msgDuplicateUpload } ∧
    (importStreamingHistory {} "StreamingHistory0.json".data c2data c2state).2
        = c2state := by
  exact ⟨by decide, by decide, by decide, by decide⟩

/-- C8: when the batch filter removes every transformed candidate, the
importer fails with the `AllDuplicates` top-level error and the state —
in particular the play store — is untouched. -/
theorem allDuplicates_aborts (env : ImpEnv) (filename : Str) (data : List Item)
    (st : ImpState)
    (hdup : checkDuplicateUpload env st.uploads filename data = false)
    (hval : validateFile filename data = .ok ())
    (hne : ¬ (parseStreamingHistory data).1.length = 0)
    (hfil : (filterNewPlays (hasNearbyApiPlay env.nearbyFailure st.plays)
        (some (parseStreamingHistory data).1)).1 = []) :
    importStreamingHistory env filename data st
      = ({ success := false, error := some msgAllDuplicates }, st) := by
  unfold importStreamingHistory
  rw [hdup]
  simp only [Bool.false_eq_true, if_false]
  unfold importRest
  rw [hval]
  simp only [hfil, if_neg hne, List.length_nil]
  rfl

def c8data : List Item :=
  [{ endTime := some "2023-12-27 10:30".data, trackName := some "Song".data,
     artistName := some "Artist".data, msPlayed := some 3500 }]

/-- A store holding an authoritative (api) play at exactly the instant of
the one candidate in `c8data`. -/
def c8state : ImpState :=
  { plays := [{ id := 1, played_at := 1703673000000, source := sourceApi }],
    uploads := [] }

/-- C8 witness: the concrete all-duplicates import, hypotheses evaluated
and the abort conclusion instantiated. -/
theorem allDuplicates_aborts_witness :
    checkDuplicateUpload {} c8state.uploads "StreamingHistory0.json".data c8data = false ∧
    validateFile "StreamingHistory0.json".data c8data = .ok () ∧
    ¬ (parseStreamingHistory c8data).1.length = 0 ∧
    (filterNewPlays (hasNearbyApiPlay ({} : ImpEnv).nearbyFailure c8state.plays)
        (some (parseStreamingHistory c8data).1)).1 = [] ∧
    importStreamingHistory {} "StreamingHistory0.json".data c8data c8state
      = ({ success := false, error := some msgAllDuplicates }, c8state) :=
  ⟨by decide, rfl, by decide, by decide,
   allDuplicates_aborts {} "StreamingHistory0.json".data c8data c8state
     (by decide) rfl (by decide) (by decide)⟩

/-- C10: whenever the provenance lookup fails with a store error other
than the not-found result, `checkDuplicateUpload` reports "not a
duplicate" and the import proceeds with the rest of the pipeline
(validation, parsing, filtering, persistence) exactly as if no duplicate
existed. -/
theorem checkDuplicateUpload_failopen (env : ImpEnv) (filename : Str)
    (data : List Item) (st : ImpState) (herr : env.dupCheckErr = true) :
    checkDuplicateUpload env st.uploads filename data = false ∧
    importStreamingHistory env filename data st = importRest env filename data st := by
  have hc : checkDuplicateUpload env st.uploads filename data = false := by
    unfold checkDuplicateUpload
    rw [herr]
    simp
  refine ⟨hc, ?_⟩
  unfold importStreamingHistory
  rw [hc]
  simp

def c10data : List Item :=
  [{ endTime := some "2023-12-27 10:30".data, trackName := some "Song".data,
     artistName := some "Artist".data, msPlayed := some 3500 }]

/-- A state in which a byte-identical upload under the same filename is
already recorded, so a working provenance lookup would reject the call. -/
def c10state : ImpState :=
  { plays := [],
    uploads := [{ filename := "StreamingHistory0.json".data, file_hash := c10data,
                  user_id := userId, total_plays := 1, inserted_plays := 1 }] }

def c10env : ImpEnv := { dupCheckErr := true }

/-- C10 witness: with the lookup failing, even an exact already-recorded
duplicate sails through and the import completes successfully. -/
theorem checkDuplicateUpload_failopen_witness :
    c10env.dupCheckErr = true ∧
    checkDuplicateUpload c10env c10state.uploads "StreamingHistory0.json".data c10data
        = false ∧
    importStreamingHistory c10env "StreamingHistory0.json".data c10data c10state
        = importRest c10env "StreamingHistory0.json".data c10data c10state ∧
    (importStreamingHistory c10env "StreamingHistory0.json".data c10data c10state).1.success
        = true :=
  ⟨rfl,
   (checkDuplicateUpload_failopen c10env "StreamingHistory0.json".data c10data c10state rfl).1,
   (checkDuplicateUpload_failopen c10env "StreamingHistory0.json".data c10data c10state rfl).2,
   by decide⟩

theorem and_true_parts {a b : Bool} (h : (a && b) = true) :
    a = true ∧ b = true := by
  cases a <;> cases b <;> simp_all

/-- The rows `cleanExistingImportPlays` is meant to delete: import plays
of the user having an authoritative play within the ±5 s window. -/
def cleanDropPred (store : List Play) (p : Play) : Bool :=
  ownedImport p && hasNearbyApiPlay .ok store p.played_at

theorem mem_fetchedImports {store : List Play} {p : Play} :
    p ∈ fetchedImports store ↔ p ∈ store ∧ ownedImport p = true := by
  unfold fetchedImports sortByPlayedAt
  rw [List.mem_mergeSort, List.mem_filter]

theorem cleanOut_ok_eq (store : List Play) :
    cleanOut .ok store =
      ⟨(fetchedImports store).filter
          (fun p => !droppedBy (hasNearbyApiPlay .ok store) p),
       (fetchedImports store).countP (droppedBy (hasNearbyApiPlay .ok store)),
       (fetchedImports store).countP (fun p => p.source == sourceImport)⟩ :=
  removeDuplicateImportPlays_some_eq _ _

/-- Probing a restriction of the store can only lose matches. -/
theorem hasNearbyApiPlay_filter_mono (store : List Play) (f : Play → Bool) (t : Int)
    (h : hasNearbyApiPlay .ok (store.filter f) t = true) :
    hasNearbyApiPlay .ok store t = true := by
  rw [hasNearbyApiPlay_ok_eq_any] at h ⊢
  obtain ⟨x, hx, hw⟩ := List.any_eq_true.mp h
  exact List.any_eq_true.mpr ⟨x, (List.mem_filter.mp hx).1, hw⟩

/-- A run of the reconciler on a store in which no import play of the
user matches an authoritative play removes nothing and leaves the store
as is. -/
theorem cleanExisting_no_flagged (s : List Play)
    (h : ∀ p ∈ s, ownedImport p = true →
      hasNearbyApiPlay .ok s p.played_at = false) :
    ∃ res, cleanExistingImportPlays {} s = .ok (s, res) ∧ res.removed = 0 := by
  have hred : cleanExistingImportPlays {} s =
      (if (fetchedImports s).length = 0 then .ok (s, ⟨0, 0, none⟩)
       else if 0 < (cleanOut .ok s).removed then
         .ok (s.filter fun p => !((cleanIdsToRemove .ok s).contains p.id),
           ⟨(fetchedImports s).length, (cleanOut .ok s).removed,
            some (cleanOut .ok s).cleaned.length⟩)
       else .ok (s, ⟨(fetchedImports s).length, (cleanOut .ok s).removed,
         some (cleanOut .ok s).cleaned.length⟩)) := rfl
  have h0 : (cleanOut .ok s).removed = 0 := by
    rw [cleanOut_ok_eq]
    show (fetchedImports s).countP (droppedBy (hasNearbyApiPlay .ok s)) = 0
    apply List.countP_eq_zero.mpr
    intro p hp hd
    have hpi := mem_fetchedImports.mp hp
    have hm := h p hpi.1 hpi.2
    unfold droppedBy at hd
    rw [hm, Bool.and_false] at hd
    exact Bool.false_ne_true hd
  rw [hred]
  by_cases hlen : (fetchedImports s).length = 0
  · rw [if_pos hlen]
    exact ⟨⟨0, 0, none⟩, rfl, rfl⟩
  · rw [if_neg hlen, if_neg (by rw [h0]; exact Nat.lt_irrefl 0)]
    exact ⟨_, rfl, h0⟩

/-- First-run characterization: with store-unique row ids, a successful
run deletes exactly the user-owned import plays that match an
authoritative play within the window, and nothing else. -/
theorem cleanExisting_first (store : List Play)
    (hids : (store.map Play.id).Nodup) :
    ∃ res, cleanExistingImportPlays {} store
      = .ok (store.filter (fun p => !cleanDropPred store p), res) := by
  have hred : cleanExistingImportPlays {} store =
      (if (fetchedImports store).length = 0 then .ok (store, ⟨0, 0, none⟩)
       else if 0 < (cleanOut .ok store).removed then
         .ok (store.filter fun p => !((cleanIdsToRemove .ok store).contains p.id),
           ⟨(fetchedImports store).length, (cleanOut .ok store).removed,
            some (cleanOut .ok store).cleaned.length⟩)
       else .ok (store, ⟨(fetchedImports store).length, (cleanOut .ok store).removed,
         some (cleanOut .ok store).cleaned.length⟩)) := rfl
  rw [hred]
  by_cases hlen : (fetchedImports store).length = 0
  · rw [if_pos hlen]
    have hq : store.filter ownedImport = [] := by
      apply List.eq_nil_of_length_eq_zero
      have hlm : (fetchedImports store).length = (store.filter ownedImport).length := by
        unfold fetchedImports sortByPlayedAt
        exact List.length_mergeSort _
      omega
    have hall := List.filter_eq_nil_iff.mp hq
    have hself : store.filter (fun p => !cleanDropPred store p) = store := by
      rw [List.filter_eq_self]
      intro p hp
      have h2 : ownedImport p = false := Bool.eq_false_iff.mpr (hall p hp)
      unfold cleanDropPred
      rw [h2, Bool.false_and]
      rfl
    rw [hself]
    exact ⟨⟨0, 0, none⟩, rfl⟩
  · rw [if_neg hlen]
    by_cases hrem : 0 < (cleanOut .ok store).removed
    · rw [if_pos hrem]
      have hids_eq : ∀ r ∈ store,
          ((cleanIdsToRemove .ok store).contains r.id) = cleanDropPred store r := by
        intro r hr
        apply Bool.eq_iff_iff.mpr
        constructor
        · intro hc
          have hmem : r.id ∈ cleanIdsToRemove .ok store := List.elem_iff.mp hc
          unfold cleanIdsToRemove at hmem
          obtain ⟨p, hpmem, hpid⟩ := List.mem_map.mp hmem
          have hpf := List.mem_filter.mp hpmem
          have hpi : p ∈ store ∧ ownedImport p = true := mem_fetchedImports.mp hpf.1
          have hnc : ¬ p ∈ (cleanOut .ok store).cleaned := by
            intro hpc
            have hcn : (cleanOut .ok store).cleaned.contains p = true :=
              List.elem_iff.mpr hpc
            have := hpf.2
            rw [hcn] at this
            exact Bool.false_ne_true this
          have hdp : droppedBy (hasNearbyApiPlay .ok store) p = true := by
            by_contra hnd
            apply hnc
            rw [cleanOut_ok_eq]
            refine List.mem_filter.mpr ⟨hpf.1, ?_⟩
            have hfalse : droppedBy (hasNearbyApiPlay .ok store) p = false :=
              Bool.eq_false_iff.mpr hnd
            rw [hfalse]
            rfl
          have hpr : p = r := List.inj_on_of_nodup_map hids hpi.1 hr hpid
          subst hpr
          unfold cleanDropPred
          rw [hpi.2, Bool.true_and]
          unfold droppedBy at hdp
          exact (and_true_parts hdp).2
        · intro hd
          unfold cleanDropPred at hd
          obtain ⟨how, hm⟩ := and_true_parts hd
          have hrf : r ∈ fetchedImports store := mem_fetchedImports.mpr ⟨hr, how⟩
          have hdb : droppedBy (hasNearbyApiPlay .ok store) r = true := by
            unfold droppedBy
            rw [hm, Bool.and_true]
            exact (and_true_parts how).2
          have hnc : (cleanOut .ok store).cleaned.contains r = false := by
            apply Bool.eq_false_iff.mpr
            intro hc
            have hrc : r ∈ (cleanOut .ok store).cleaned := List.elem_iff.mp hc
            rw [cleanOut_ok_eq] at hrc
            have hnotd := (List.mem_filter.mp hrc).2
            rw [hdb] at hnotd
            exact Bool.false_ne_true hnotd
          apply List.elem_iff.mpr
          unfold cleanIdsToRemove
          exact List.mem_map.mpr
            ⟨r, List.mem_filter.mpr ⟨hrf, by rw [hnc]; rfl⟩, rfl⟩
      have hfc : store.filter (fun p => !((cleanIdsToRemove .ok store).contains p.id))
          = store.filter (fun p => !cleanDropPred store p) :=
        List.filter_congr (fun r hr => by rw [hids_eq r hr])
      rw [hfc]
      exact ⟨_, rfl⟩
    · rw [if_neg hrem]
      have h0 : (fetchedImports store).countP
          (droppedBy (hasNearbyApiPlay .ok store)) = 0 := by
        have he : (cleanOut .ok store).removed = (fetchedImports store).countP
            (droppedBy (hasNearbyApiPlay .ok store)) := by rw [cleanOut_ok_eq]
        have h00 := Nat.eq_zero_of_not_pos hrem
        rw [he] at h00
        exact h00
      have hall := List.countP_eq_zero.mp h0
      have hself : store.filter (fun p => !cleanDropPred store p) = store := by
        rw [List.filter_eq_self]
        intro p hp
        by_cases how : ownedImport p = true
        · have hpi : p ∈ fetchedImports store := mem_fetchedImports.mpr ⟨hp, how⟩
          have hnd := hall p hpi
          have hsrc : (p.source == sourceImport) = true := (and_true_parts how).2
          have hm : hasNearbyApiPlay .ok store p.played_at = false := by
            cases hmv : hasNearbyApiPlay .ok store p.played_at with
            | false => rfl
            | true =>
              exact absurd (by unfold droppedBy; rw [hsrc, hmv]; rfl) hnd
          unfold cleanDropPred
          rw [hm, Bool.and_false]
          rfl
        · have hof : ownedImport p = false := Bool.eq_false_iff.mpr how
          unfold cleanDropPred
          rw [hof, Bool.false_and]
          rfl
      rw [hself]
      exact ⟨_, rfl⟩

/-- C6: with store-unique row ids, `cleanExistingImportPlays` deletes
exactly the stored user-owned import plays within ±5 s of an authoritative
play — never an authoritative row — and a second run on the resulting
store removes nothing (`removed = 0`). -/
theorem cleanExistingImportPlays_idempotent (store : List Play)
    (hids : (store.map Play.id).Nodup) :
    ∃ store1 res1,
      cleanExistingImportPlays {} store = .ok (store1, res1) ∧
      store1 = store.filter (fun p => !cleanDropPred store p) ∧
      (∀ p ∈ store, p.source ≠ sourceImport → p ∈ store1) ∧
      ∃ res2, cleanExistingImportPlays {} store1 = .ok (store1, res2) ∧
        res2.removed = 0 := by
  obtain ⟨res1, h1⟩ := cleanExisting_first store hids
  have hkeep : ∀ p ∈ store, p.source ≠ sourceImport →
      p ∈ store.filter (fun p => !cleanDropPred store p) := by
    intro p hp hsrc
    refine List.mem_filter.mpr ⟨hp, ?_⟩
    have hsb : (p.source == sourceImport) = false := beq_eq_false_iff_ne.mpr hsrc
    unfold cleanDropPred ownedImport
    rw [hsb, Bool.and_false, Bool.false_and]
    rfl
  have hnf : ∀ p ∈ store.filter (fun p => !cleanDropPred store p),
      ownedImport p = true →
      hasNearbyApiPlay .ok (store.filter (fun p => !cleanDropPred store p))
        p.played_at = false := by
    intro p hp how
    have hmf := List.mem_filter.mp hp
    have hdp : cleanDropPred store p = false := by
      cases hv : cleanDropPred store p with
      | false => rfl
      | true =>
        have := hmf.2
        rw [hv] at this
        exact absurd this (by decide)
    have hm : hasNearbyApiPlay .ok store p.played_at = false := by
      unfold cleanDropPred at hdp
      rw [how, Bool.true_and] at hdp
      exact hdp
    cases hv : hasNearbyApiPlay .ok
        (store.filter fun p => !cleanDropPred store p) p.played_at with
    | false => rfl
    | true =>
      have hmono := hasNearbyApiPlay_filter_mono store _ _ hv
      rw [hm] at hmono
      exact absurd hmono Bool.false_ne_true
  obtain ⟨res2, h2, h20⟩ := cleanExisting_no_flagged _ hnf
  exact ⟨store.filter (fun p => !cleanDropPred store p), res1, h1, rfl, hkeep,
    res2, h2, h20⟩

def c6store : List Play :=
  [{ id := 1, played_at := 1000000, source := sourceApi },
   { id := 2, played_at := 1003000, source := sourceImport },
   { id := 3, played_at := 2000000, source := sourceImport }]

/-- C6 witness: a store with one authoritative play, one import play 3 s
away (deleted on the first run) and one import play far away (kept);
the Nodup hypothesis is discharged by evaluation. -/
theorem cleanExistingImportPlays_idempotent_witness :
    (c6store.map Play.id).Nodup ∧
    ∃ store1 res1,
      cleanExistingImportPlays {} c6store = .ok (store1, res1) ∧
      store1 = c6store.filter (fun p => !cleanDropPred c6store p) ∧
      (∀ p ∈ c6store, p.source ≠ sourceImport → p ∈ store1) ∧
      ∃ res2, cleanExistingImportPlays {} store1 = .ok (store1, res2) ∧
        res2.removed = 0 :=
  ⟨by decide, cleanExistingImportPlays_idempotent c6store (by decide)⟩

end SpotifyStats
